import Mathlib

/-!
Verification of the donor-registry service (`app.py`): a shallow embedding of
its record store and query/update operations, followed by theorems settling
the specification claims about them.

Conventions of the embedding:
* Python strings are Lean `String`s; the Python string operations used by the
  code (`strip`, `upper`, `capitalize`, the `in` substring test, truthiness,
  `x or y`) are modelled by the `py*` functions below, operating on the
  character list `String.data`.
* A request field that may be absent or JSON-`null` is an `Option String`
  (`none` covers both: `dict.get` returns `None` in either case, and every
  use in the code goes through truthiness or `or`-defaulting, which cannot
  distinguish them).
* The global `DONOR_DATA` list is passed explicitly; each mutating operation
  returns the new list together with its response.
-/

/-- A donor record, as built by `create_donor` and stored in `donors.json`.
Field names follow the JSON keys used by the source. Every field except `id`
may be absent (or null) in records loaded from the backing file, hence
`Option String`. -/
structure Donor where
  id : Int
  Name : Option String
  Phone_Number : Option String
  Blood_Group : Option String
  Availability_Status : Option String
  Address : Option String
deriving DecidableEq, Repr

/-- The body of a create-donor request: the fields `create_donor` reads from
`request.get_json() / request.form`. -/
structure Req where
  Name : Option String
  Phone_Number : Option String
  Blood_Group : Option String
  Address : Option String
  City : Option String
  Availability_Status : Option String
deriving DecidableEq, Repr

/-- Python truthiness of an optional string: `None` and `""` are falsy. -/
def truthy : Option String → Bool
  | none => false
  | some s => s != ""

/-- Python `x or d` for an optional string `x`: the value when truthy,
otherwise the default. -/
def pyOr : Option String → String → String
  | none, d => d
  | some s, d => if s == "" then d else s

/-- Python `str.strip()`: drop leading and trailing whitespace. -/
def pyStrip (s : String) : String :=
  ⟨(s.data.dropWhile Char.isWhitespace).rdropWhile Char.isWhitespace⟩

/-- Python `str.upper()`: uppercase every character. -/
def pyUpper (s : String) : String :=
  ⟨s.data.map Char.toUpper⟩

/-- Python `str.capitalize()`: first character uppercased, the rest
lowercased; identity on the empty string. -/
def pyCapitalize (s : String) : String :=
  match s.data with
  | [] => ⟨[]⟩
  | c :: cs => ⟨Char.toUpper c :: cs.map Char.toLower⟩

/-- Python `needle in hay` on strings: contiguous-substring test. -/
def pyContains (hay needle : String) : Bool :=
  decide (needle.data <:+: hay.data)

/-- `AVAILABLE_KEY` from the source: availability comparisons happen in
upper case against this constant. -/
def AVAILABLE_KEY : String := "AVAILABLE"

/-- `next_id()`: `max((int(d.get("id", 0)) for d in DONOR_DATA), default=0) + 1`.
In this embedding every donor carries an integer `id`, so the generator is
the list of ids; `max(..., default=0)` is a fold of `max` over a nonempty
list and `0` for the empty one. -/
def next_id (donors : List Donor) : Int :=
  (match donors.map (fun d => d.id) with
   | [] => (0 : Int)
   | x :: xs => xs.foldl max x) + 1

/-- The per-record filter body of `search_donors`: given the normalized keys
`bg_key` and `name_key`, a donor is kept unless one of the `continue`
branches fires. `donor.get("Blood_Group") or ""`, `donor.get("Name") or ""`
and `donor.get("Availability_Status") or "Unavailable"` are the
`pyOr`-defaulted field reads of the source. -/
def donorMatches (bg_key name_key : String) (d : Donor) : Bool :=
  (if bg_key != "" then
      (pyUpper (pyStrip (pyOr d.Blood_Group "")) == bg_key)
        && (pyUpper (pyStrip (pyOr d.Availability_Status "Unavailable")) == AVAILABLE_KEY)
    else true)
  && (if name_key != "" then
        pyContains (pyUpper (pyStrip (pyOr d.Name ""))) name_key
      else true)

/-- `search_donors`: no truthy filter returns the whole collection;
otherwise both inputs are normalized (`(x or "").strip().upper()`) and the
collection is filtered by `donorMatches`. -/
def search_donors (donors : List Donor)
    (blood_group_input name_input : Option String) : List Donor :=
  if !truthy blood_group_input && !truthy name_input then donors
  else
    donors.filter
      (donorMatches (pyUpper (pyStrip (pyOr blood_group_input "")))
        (pyUpper (pyStrip (pyOr name_input ""))))

/-- The required-field names of `create_donor`, in source order. -/
def requiredFields : List String := ["Name", "Phone_Number", "Blood_Group"]

/-- `data.get(f)` for a create request: field lookup by JSON key. -/
def Req.get (r : Req) : String → Option String
  | "Name" => r.Name
  | "Phone_Number" => r.Phone_Number
  | "Blood_Group" => r.Blood_Group
  | "Address" => r.Address
  | "City" => r.City
  | "Availability_Status" => r.Availability_Status
  | _ => none

/-- `missing = [f for f in required if not (data.get(f))]`. -/
def missingFields (r : Req) : List String :=
  requiredFields.filter (fun f => !truthy (r.get f))

/-- The 400-response text `"Missing fields: " + ", ".join(missing)`. -/
def missingMsg (r : Req) : String :=
  "Missing fields: " ++ String.intercalate ", " (missingFields r)

/-- `create_donor`: validates the required fields, then builds the record
(`Address` from `data.get("Address") or data.get("City") or ""`, blood group
upper-cased, availability defaulted to `"Available"` and capitalized),
appends it and returns it. The pair is (new collection, response). -/
def create_donor (donors : List Donor) (r : Req) :
    List Donor × Except String Donor :=
  if missingFields r ≠ [] then
    (donors, Except.error (missingMsg r))
  else
    let donor : Donor :=
      { id := next_id donors
        Name := some (pyStrip (pyOr r.Name ""))
        Phone_Number := some (pyStrip (pyOr r.Phone_Number ""))
        Blood_Group := some (pyUpper (pyStrip (pyOr r.Blood_Group "")))
        Availability_Status :=
          some (pyCapitalize (pyStrip (pyOr r.Availability_Status "Available")))
        Address := some (pyStrip (pyOr r.Address (pyOr r.City ""))) }
    (donors ++ [donor], Except.ok donor)

/-- The three responses of `update_status`: 400 (missing input), 200, 404. -/
inductive UpdateResult where
  | missingInput : UpdateResult
  | updated : UpdateResult
  | notFound : UpdateResult
deriving DecidableEq, Repr

/-- The `for donor in DONOR_DATA` loop of `update_status`: rewrite the
`Availability_Status` of the first donor whose `str(donor.get("id"))` equals
the target and stop; `none` when no id matches. -/
def updateFirst (donors : List Donor) (target status : String) :
    Option (List Donor) :=
  match donors with
  | [] => none
  | d :: rest =>
    if toString d.id == target then
      some ({ d with Availability_Status := some status } :: rest)
    else
      (updateFirst rest target status).map (fun l => d :: l)

/-- `update_status`: 400 if `id` or `new_status` is falsy; otherwise the
first donor with matching stringified id gets
`str(new_status).strip().capitalize()`, or 404 when none matches. -/
def update_status (donors : List Donor) (donor_id new_status : Option String) :
    List Donor × UpdateResult :=
  if !truthy donor_id || !truthy new_status then
    (donors, UpdateResult.missingInput)
  else
    match updateFirst donors (pyOr donor_id "")
        (pyCapitalize (pyStrip (pyOr new_status ""))) with
    | some donors2 => (donors2, UpdateResult.updated)
    | none => (donors, UpdateResult.notFound)

instance exceptDecEq {ε α : Type} [DecidableEq ε] [DecidableEq α] :
    DecidableEq (Except ε α) := fun
  | Except.error x, Except.error y =>
    if h : x = y then Decidable.isTrue (by rw [h])
    else Decidable.isFalse (by intro hh; cases hh; exact h rfl)
  | Except.error _, Except.ok _ => Decidable.isFalse (by intro hh; cases hh)
  | Except.ok _, Except.error _ => Decidable.isFalse (by intro hh; cases hh)
  | Except.ok x, Except.ok y =>
    if h : x = y then Decidable.isTrue (by rw [h])
    else Decidable.isFalse (by intro hh; cases hh; exact h rfl)

/-- A JSON value, as produced by parsing the backing file `donors.json` or
passed to `json.dump`. The persistence layer of the source is modelled at
this parsed-document level: `json.dump`/`json.loads` of the Python standard
library are external collaborators, so the backing file is modelled as
holding the JSON document itself. Integer ids are the only numbers donor
records use. -/
inductive Jval where
  | jnull : Jval
  | jbool : Bool → Jval
  | jnum : Int → Jval
  | jstr : String → Jval
  | jarr : List Jval → Jval
  | jobj : List (String × Jval) → Jval

/-- Present string field to JSON value; an absent field is stored as null
(indistinguishable from absent for every consumer in the source, all of
which read through `dict.get`). -/
def optStr : Option String → Jval
  | none => Jval.jnull
  | some s => Jval.jstr s

/-- First-match key lookup in a JSON object (Python dict access). -/
def lookupKey : List (String × Jval) → String → Option Jval
  | [], _ => none
  | (k, v) :: rest, key => if k == key then some v else lookupKey rest key

/-- Read back an optional string field: a string value yields it, anything
else (absent, null, wrong type) yields `none`. -/
def jstrOpt : Option Jval → Option String
  | some (Jval.jstr s) => some s
  | _ => none

/-- A donor record as the JSON object `json.dump` writes for it, keys in the
insertion order of `create_donor`. -/
def encodeDonor (d : Donor) : Jval :=
  Jval.jobj
    [("id", Jval.jnum d.id),
     ("Name", optStr d.Name),
     ("Phone_Number", optStr d.Phone_Number),
     ("Blood_Group", optStr d.Blood_Group),
     ("Availability_Status", optStr d.Availability_Status),
     ("Address", optStr d.Address)]

/-- Read one donor record back from its JSON object. -/
def decodeDonor : Jval → Option Donor
  | Jval.jobj fs =>
    match lookupKey fs "id" with
    | some (Jval.jnum n) =>
      some
        { id := n
          Name := jstrOpt (lookupKey fs "Name")
          Phone_Number := jstrOpt (lookupKey fs "Phone_Number")
          Blood_Group := jstrOpt (lookupKey fs "Blood_Group")
          Availability_Status := jstrOpt (lookupKey fs "Availability_Status")
          Address := jstrOpt (lookupKey fs "Address") }
    | _ => none
  | _ => none

/-- Decode a list of donor objects, failing if any element fails. -/
def decodeList : List Jval → Option (List Donor)
  | [] => some []
  | j :: js =>
    match decodeDonor j, decodeList js with
    | some d, some ds => some (d :: ds)
    | _, _ => none

/-- `save_donor_data()`: `json.dump(DONOR_DATA, f, indent=4)` — the document
written to the backing file is the array of donor objects. -/
def save_donor_data (donors : List Donor) : Jval :=
  Jval.jarr (donors.map encodeDonor)

/-- `load_donor_data()`: `DONOR_DATA = json.loads(content)` — the document
read back from the backing file, decoded into the donor collection; `none`
for a document that is not an array of donor records. -/
def load_donor_data : Jval → Option (List Donor)
  | Jval.jarr js => decodeList js
  | _ => none

/-- The spec-side predicate for a blood-group-filtered (public) search,
written from the specification text: the `Blood_Group` of the record, trimmed
and upper-cased, equals the trimmed-upper-cased filter, and its trimmed
upper-cased `Availability_Status` equals `"AVAILABLE"`. -/
def specPublicMatch (bgFilter : String) (d : Donor) : Bool :=
  (pyUpper (pyStrip (d.Blood_Group.getD "")) == pyUpper (pyStrip bgFilter))
    && (pyUpper (pyStrip (d.Availability_Status.getD "")) == AVAILABLE_KEY)

/-- The spec-side stored `Address`, written from the (amended) specification
text: the trimmed `Address` input when it is present and non-empty,
otherwise the trimmed `City` input when present and non-empty, otherwise
the empty string. -/
def specAddress (r : Req) : String :=
  if truthy r.Address then pyStrip (r.Address.getD "")
  else if truthy r.City then pyStrip (r.City.getD "")
  else ""

/-- Concrete records and requests used to instantiate the theorems below. -/
def dAnna : Donor := ⟨1, some "Anna", some "1", some "O+", some "Available", some ""⟩

def dJoann : Donor := ⟨2, some "Joann", some "2", some "A+", some "Available", some ""⟩

def dNoAvail : Donor := ⟨1, some "Ann", some "1", some "O+", none, some ""⟩

def reqPune : Req := ⟨some "Ann", some "123", some "o+", none, some "Pune", none⟩

def reqCat : Req := ⟨some "Cat", some "3", some "ab-", none, none, none⟩

def donorsBase : List Donor :=
  [⟨5, some "A", some "1", some "A+", some "Available", some ""⟩,
   ⟨2, some "B", some "2", some "B+", some "Available", some ""⟩]

theorem pyOr_empty (o : Option String) : pyOr o "" = o.getD "" := by
  cases o with
  | none => rfl
  | some s =>
    simp only [pyOr, Option.getD_some]
    split <;> simp_all

theorem truthy_some_iff (s : String) : truthy (some s) = true ↔ s ≠ "" := by
  simp [truthy]

theorem pyUpper_eq_empty_iff (s : String) : pyUpper s = "" ↔ s = "" := by
  constructor
  · intro h
    have hd : s.data.map Char.toUpper = "".data := congrArg String.data h
    have hnil : s.data = [] := List.map_eq_nil_iff.mp hd
    exact congrArg String.mk hnil
  · intro h; rw [h]; rfl

theorem pyStrip_infix_data (s : String) : (pyStrip s).data <:+: s.data := by
  have h1 : (pyStrip s).data <+: s.data.dropWhile Char.isWhitespace :=
    List.rdropWhile_prefix _ _
  have h2 : s.data.dropWhile Char.isWhitespace <:+ s.data :=
    List.dropWhile_suffix _
  rcases h1 with ⟨t, ht⟩
  rcases h2 with ⟨u, hu⟩
  refine ⟨u, t, ?_⟩
  rw [List.append_assoc, ht, hu]

theorem pyContains_iff (hay needle : String) :
    pyContains hay needle = true ↔ needle.data <:+: hay.data := by
  simp [pyContains]

/-- The availability test of the filter loop agrees with the spec-side
reading of the field through `Option.getD ""`: both reject absent, null and
empty values (the source defaults them to `"Unavailable"`, the spec text
normalizes the empty string, and neither equals `"AVAILABLE"`). -/
theorem availNorm_eq (o : Option String) :
    (pyUpper (pyStrip (pyOr o "Unavailable")) == AVAILABLE_KEY)
      = (pyUpper (pyStrip (o.getD "")) == AVAILABLE_KEY) := by
  cases o with
  | none => decide
  | some s =>
    by_cases hs : s = ""
    · subst hs; decide
    · have : pyOr (some s) "Unavailable" = s := by
        simp [pyOr]
        intro h; exact absurd h hs
      rw [this]
      simp [Option.getD_some]

theorem foldl_max_mem (x : Int) (xs : List Int) : xs.foldl max x ∈ x :: xs := by
  induction xs generalizing x with
  | nil => simp
  | cons y ys ih =>
    simp only [List.foldl_cons]
    rcases List.mem_cons.mp (ih (max x y)) with h1 | h1
    · rcases max_choice x y with hm | hm
      · rw [h1, hm]; exact List.mem_cons_self _ _
      · rw [h1, hm]; exact List.mem_cons_of_mem _ (List.mem_cons_self _ _)
    · exact List.mem_cons_of_mem _ (List.mem_cons_of_mem _ h1)

theorem le_foldl_max (x : Int) (xs : List Int) :
    ∀ y ∈ x :: xs, y ≤ xs.foldl max x := by
  induction xs generalizing x with
  | nil => intro y hy; simp at hy; simp [hy]
  | cons z zs ih =>
    intro y hy
    simp only [List.foldl_cons]
    rcases List.mem_cons.mp hy with h1 | h1
    · subst h1
      exact le_trans (le_max_left y z)
        (ih (max y z) (max y z) (List.mem_cons_self _ _))
    · rcases List.mem_cons.mp h1 with h2 | h2
      · subst h2
        exact le_trans (le_max_right x y)
          (ih (max x y) (max x y) (List.mem_cons_self _ _))
      · exact ih (max x z) y (List.mem_cons_of_mem _ h2)

theorem id_lt_next_id (donors : List Donor) (d : Donor) (hd : d ∈ donors) :
    d.id < next_id donors := by
  have hmem : d.id ∈ donors.map (fun d => d.id) := List.mem_map_of_mem _ hd
  unfold next_id
  cases hids : donors.map (fun d => d.id) with
  | nil => rw [hids] at hmem; simp at hmem
  | cons x xs =>
    rw [hids] at hmem
    have h2 := le_foldl_max x xs d.id hmem
    show d.id < List.foldl max x xs + 1
    omega

theorem next_id_nil : next_id [] = 1 := rfl

theorem next_id_sub_one_mem (donors : List Donor) (hne : donors ≠ []) :
    next_id donors - 1 ∈ donors.map (fun d => d.id) := by
  unfold next_id
  cases hids : donors.map (fun d => d.id) with
  | nil =>
    exact absurd (List.map_eq_nil_iff.mp hids) hne
  | cons x xs =>
    show List.foldl max x xs + 1 - 1 ∈ x :: xs
    simpa using foldl_max_mem x xs

theorem updateFirst_none (donors : List Donor) (target status : String)
    (h : ∀ d ∈ donors, toString d.id ≠ target) :
    updateFirst donors target status = none := by
  induction donors with
  | nil => rfl
  | cons d rest ih =>
    have hd : toString d.id ≠ target := h d (by simp)
    simp only [updateFirst]
    rw [if_neg (by simpa using hd)]
    rw [ih (fun d' hd' => h d' (by simp [hd']))]
    rfl

theorem updateFirst_map_id (donors : List Donor) (target status : String)
    (l2 : List Donor) (h : updateFirst donors target status = some l2) :
    l2.map (fun d => d.id) = donors.map (fun d => d.id) := by
  induction donors generalizing l2 with
  | nil => simp [updateFirst] at h
  | cons d rest ih =>
    simp only [updateFirst] at h
    split at h
    · cases h; simp
    · cases hrest : updateFirst rest target status with
      | none => rw [hrest] at h; simp at h
      | some r2 =>
        rw [hrest] at h
        injection h with h
        subst h
        simp [ih r2 hrest]

theorem updateFirst_idem (donors : List Donor) (target status : String)
    (l2 : List Donor) (h : updateFirst donors target status = some l2) :
    updateFirst l2 target status = some l2 := by
  induction donors generalizing l2 with
  | nil => simp [updateFirst] at h
  | cons d rest ih =>
    simp only [updateFirst] at h
    split at h
    · cases h
      cases d with
      | mk i n p b a ad =>
        simp only [updateFirst]
        rw [if_pos (by assumption)]
    · cases hrest : updateFirst rest target status with
      | none => rw [hrest] at h; simp at h
      | some r2 =>
        rw [hrest] at h
        injection h with h
        subst h
        simp only [updateFirst]
        rw [if_neg (by assumption)]
        rw [ih r2 hrest]
        rfl

theorem decode_encode (d : Donor) : decodeDonor (encodeDonor d) = some d := by
  cases d with
  | mk i n p b a ad =>
    cases n <;> cases p <;> cases b <;> cases a <;> cases ad <;> rfl

/-- The ids of the collection are untouched by `update_status`, whatever its
inputs and outcome. -/
theorem update_status_map_id (donors : List Donor) (did ns : Option String) :
    (update_status donors did ns).1.map (fun x => x.id)
      = donors.map (fun x => x.id) := by
  unfold update_status
  split
  · rfl
  · split
    · exact updateFirst_map_id donors _ _ _ (by assumption)
    · rfl

/-- C9: a search request with neither a blood-group filter nor a name filter
returns exactly the full collection, in original order — including donors
whose availability is not "Available", since no record is inspected at
all. -/
theorem C9_no_filters_returns_all (donors : List Donor) :
    search_donors donors none none = donors := rfl

/-- C6: update-status is idempotent — applying the same id and `new_status`
twice (whether or not the id is found, and whether or not the inputs are
truthy) yields the same final collection and response as applying it
once. -/
theorem C6_update_idempotent (donors : List Donor)
    (donor_id new_status : Option String) :
    update_status (update_status donors donor_id new_status).1
        donor_id new_status
      = update_status donors donor_id new_status := by
  unfold update_status
  by_cases hval : (!truthy donor_id || !truthy new_status) = true
  · simp [hval]
  · rw [if_neg (by simp [hval]), if_neg (by simp [hval])]
    cases hu : updateFirst donors (pyOr donor_id "")
        (pyCapitalize (pyStrip (pyOr new_status ""))) with
    | none => simp [hu]
    | some l2 => simp [hu, updateFirst_idem donors _ _ l2 hu]

/-- C4: an update-status request carrying an id and a new status, whose id
(compared as a string) matches no record, returns the not-found error and
leaves the collection exactly unchanged. -/
theorem C4_update_not_found (donors : List Donor) (tid st : String)
    (h1 : tid ≠ "") (h2 : st ≠ "")
    (h : ∀ d ∈ donors, toString d.id ≠ tid) :
    update_status donors (some tid) (some st)
      = (donors, UpdateResult.notFound) := by
  unfold update_status
  have hOr : pyOr (some tid) "" = tid := by
    simp only [pyOr]
    rw [if_neg (by simpa using h1)]
  rw [if_neg (by simp [truthy, h1, h2])]
  rw [hOr, updateFirst_none donors tid _ h]

/-- C4 witness: updating id "99" on a one-donor collection with id 1 is a
not-found and changes nothing. -/
theorem C4_update_not_found_witness :
    (("99" : String) ≠ "" ∧ ("Unavailable" : String) ≠ ""
      ∧ (∀ d ∈ [(⟨1, some "A", some "p", some "B+", some "Available", some ""⟩ : Donor)],
          toString d.id ≠ "99"))
    ∧ update_status [(⟨1, some "A", some "p", some "B+", some "Available", some ""⟩ : Donor)]
        (some "99") (some "Unavailable")
      = ([(⟨1, some "A", some "p", some "B+", some "Available", some ""⟩ : Donor)],
          UpdateResult.notFound) :=
  ⟨⟨by decide, by decide, by decide⟩,
    C4_update_not_found _ "99" "Unavailable" (by decide) (by decide) (by decide)⟩

/-- C7: saving the collection to the backing file and loading it back yields
an equal collection — same ids, same field values, same order. The file is
modelled at the parsed-JSON-document level (`json.dump` / `json.loads` of
the standard library being external collaborators). -/
theorem C7_save_load_round_trip (donors : List Donor) :
    load_donor_data (save_donor_data donors) = some donors := by
  show decodeList (donors.map encodeDonor) = some donors
  induction donors with
  | nil => rfl
  | cons d ds ih =>
    have h2 : decodeList (ds.map encodeDonor) = some ds := ih
    simp [decodeList, decode_encode, h2]

/-- With a blood-group key that is non-empty after trimming and no name
filter, the loop predicate of `search_donors` coincides with the spec-side
public-search predicate. -/
theorem donorMatches_spec (bgs : String) (hbg : pyStrip bgs ≠ "") (d : Donor) :
    donorMatches (pyUpper (pyStrip (pyOr (some bgs) "")))
        (pyUpper (pyStrip (pyOr none ""))) d
      = specPublicMatch bgs d := by
  have hbgne : bgs ≠ "" := fun hh => hbg (by rw [hh]; rfl)
  have hOr : pyOr (some bgs) "" = bgs := by
    simp only [pyOr]
    rw [if_neg (by simpa using hbgne)]
  have hkey : pyUpper (pyStrip bgs) ≠ "" :=
    fun hh => hbg ((pyUpper_eq_empty_iff _).mp hh)
  rw [hOr]
  unfold donorMatches specPublicMatch
  rw [if_pos (by simpa using hkey)]
  rw [show pyUpper (pyStrip (pyOr (none : Option String) "")) = "" from rfl]
  rw [if_neg (by simp)]
  rw [Bool.and_true, pyOr_empty d.Blood_Group,
    availNorm_eq d.Availability_Status]

/-- C1 (amended): for a blood-group filter that is non-empty after trimming
and no name filter, the search returns exactly the donors whose trimmed
upper-cased `Blood_Group` equals the trimmed-upper-cased filter and whose
trimmed upper-cased `Availability_Status` is "AVAILABLE" (absent, null and
empty availability all failing that test), in original order. -/
theorem C1_blood_filter_search_amended (donors : List Donor) (bgs : String)
    (hbg : pyStrip bgs ≠ "") :
    search_donors donors (some bgs) none
      = donors.filter (specPublicMatch bgs) := by
  have hbgne : bgs ≠ "" := fun hh => hbg (by rw [hh]; rfl)
  unfold search_donors
  rw [if_neg (by simp [truthy, hbgne])]
  exact List.filter_congr (fun d _ => donorMatches_spec bgs hbg d)

/-- C1 counterexample to the claim as stated: a whitespace-only blood-group
filter is supplied (truthy), so the claim predicts that only donors whose
normalized blood group equals the normalized filter "" (and who are
available) are returned; the source instead treats the blank key as no
filter at all and returns every donor. -/
theorem C1_blood_filter_search_counterexample :
    truthy (some " ") = true
    ∧ search_donors
        [(⟨1, some "Don", some "1", some "O+", some "Available", some ""⟩ : Donor)]
        (some " ") none
      ≠ List.filter (specPublicMatch " ")
        [(⟨1, some "Don", some "1", some "O+", some "Available", some ""⟩ : Donor)] := by
  constructor
  · decide
  · decide

/-- C1 witness: searching "O+" on a collection with a donor of group "o+"
and status "available" and a donor of group "O+" but status "Unavailable"
returns exactly the first. -/
theorem C1_blood_filter_search_witness :
    pyStrip "O+" ≠ ""
    ∧ search_donors
        [(⟨1, some "Ann", some "1", some "o+", some "available", some ""⟩ : Donor),
         (⟨2, some "Bob", some "2", some "O+", some "Unavailable", some ""⟩ : Donor)]
        (some "O+") none
      = [(⟨1, some "Ann", some "1", some "o+", some "available", some ""⟩ : Donor)] :=
  ⟨by decide,
    (C1_blood_filter_search_amended
        [(⟨1, some "Ann", some "1", some "o+", some "available", some ""⟩ : Donor),
         (⟨2, some "Bob", some "2", some "O+", some "Unavailable", some ""⟩ : Donor)]
        "O+" (by decide)).trans (by decide)⟩

/-- C8 (amended): with a name filter supplied, a record is returned only if
the trimmed-upper-cased filter occurs as a substring of the
upper-cased name of the record; when a blood-group filter non-empty after trimming is
also present the record must in addition match it exactly (normalized); and
the result is a sublist of the collection, preserving its order. -/
theorem C8_name_search_amended (donors : List Donor) (bg nm : Option String)
    (d : Donor) (hnm : truthy nm = true)
    (hd : d ∈ search_donors donors bg nm) :
    (pyUpper (pyStrip (nm.getD ""))).data <:+: (pyUpper (d.Name.getD "")).data
    ∧ (∀ bgs, bg = some bgs → pyStrip bgs ≠ "" →
        pyUpper (pyStrip (d.Blood_Group.getD "")) = pyUpper (pyStrip bgs))
    ∧ List.Sublist (search_donors donors bg nm) donors := by
  have hcond : (!truthy bg && !truthy nm) = false := by simp [hnm]
  have hd2 : d ∈ donors.filter
      (donorMatches (pyUpper (pyStrip (pyOr bg "")))
        (pyUpper (pyStrip (pyOr nm "")))) := by
    unfold search_donors at hd
    rwa [if_neg (by simp [hcond])] at hd
  obtain ⟨hmem, hmatch⟩ := List.mem_filter.mp hd2
  unfold donorMatches at hmatch
  rw [Bool.and_eq_true] at hmatch
  obtain ⟨hbgPart, hnmPart⟩ := hmatch
  refine ⟨?_, ?_, ?_⟩
  · rw [pyOr_empty nm] at hnmPart
    by_cases hk : pyUpper (pyStrip (nm.getD "")) = ""
    · rw [hk]
      exact List.nil_infix
    · rw [if_pos (by simpa using hk)] at hnmPart
      have hin := (pyContains_iff _ _).mp hnmPart
      rw [pyOr_empty d.Name] at hin
      exact hin.trans (List.IsInfix.map Char.toUpper (pyStrip_infix_data _))
  · intro bgs hbgeq hbgs
    subst hbgeq
    have hbgne : bgs ≠ "" := fun hh => hbgs (by rw [hh]; rfl)
    have hOr : pyOr (some bgs) "" = bgs := by
      simp only [pyOr]
      rw [if_neg (by simpa using hbgne)]
    have hkey : pyUpper (pyStrip bgs) ≠ "" :=
      fun hh => hbgs ((pyUpper_eq_empty_iff _).mp hh)
    rw [hOr] at hbgPart
    rw [if_pos (by simpa using hkey)] at hbgPart
    rw [Bool.and_eq_true] at hbgPart
    have hbeq := hbgPart.1
    rw [pyOr_empty d.Blood_Group] at hbeq
    exact eq_of_beq hbeq
  · unfold search_donors
    rw [if_neg (by simp [hcond])]
    exact List.filter_sublist _

/-- C8 counterexample to the claim as stated: with both filters present —
the blood-group filter a truthy whitespace-only string — a donor is
returned that does not satisfy the blood-group filter (normalized "O+"
differs from the normalized filter ""), so "must satisfy both" fails. -/
theorem C8_name_search_counterexample :
    truthy (some " ") = true
    ∧ dAnna ∈ search_donors [dAnna] (some " ") (some "ANN")
    ∧ pyUpper (pyStrip (dAnna.Blood_Group.getD "")) ≠ pyUpper (pyStrip " ") := by
  refine ⟨by decide, by decide, by decide⟩

/-- C8 witness: searching name "ann" with blood group "O+" over
[Anna (O+), Joann (A+)] returns Anna; instantiating the theorem at her
yields the substring property, the blood-group match, and order
preservation. -/
theorem C8_name_search_witness :
    (truthy (some "ann") = true
      ∧ dAnna ∈ search_donors [dAnna, dJoann] (some "O+") (some "ann"))
    ∧ ((pyUpper (pyStrip ((some "ann").getD ""))).data
          <:+: (pyUpper (dAnna.Name.getD "")).data
        ∧ (∀ bgs, some "O+" = some bgs → pyStrip bgs ≠ "" →
            pyUpper (pyStrip (dAnna.Blood_Group.getD ""))
              = pyUpper (pyStrip bgs))
        ∧ List.Sublist (search_donors [dAnna, dJoann] (some "O+") (some "ann"))
            [dAnna, dJoann]) :=
  ⟨⟨by decide, by decide⟩,
    C8_name_search_amended [dAnna, dJoann] (some "O+") (some "ann") dAnna
      (by decide) (by decide)⟩

/-- C10 (amended): a donor whose `Availability_Status` is absent, null or
empty is excluded from every search whose blood-group filter is non-empty
after trimming (whatever the name filter), yet is still reachable through a
search with no filters or with only a name filter that matches its name. -/
theorem C10_missing_availability_amended (donors : List Donor) (d : Donor)
    (bgs : String) (nm : Option String) (nmv : String)
    (hmem : d ∈ donors)
    (hav : d.Availability_Status = none ∨ d.Availability_Status = some "") :
    (pyStrip bgs ≠ "" → d ∉ search_donors donors (some bgs) nm)
    ∧ d ∈ search_donors donors none none
    ∧ (pyContains (pyUpper (pyStrip (d.Name.getD "")))
          (pyUpper (pyStrip nmv)) = true →
        d ∈ search_donors donors none (some nmv)) := by
  refine ⟨?_, ?_, ?_⟩
  · intro hbgs hd
    have hbgne : bgs ≠ "" := fun hh => hbgs (by rw [hh]; rfl)
    have hkey : pyUpper (pyStrip bgs) ≠ "" :=
      fun hh => hbgs ((pyUpper_eq_empty_iff _).mp hh)
    unfold search_donors at hd
    rw [if_neg (by simp [truthy, hbgne])] at hd
    obtain ⟨_, hmatch⟩ := List.mem_filter.mp hd
    unfold donorMatches at hmatch
    rw [Bool.and_eq_true] at hmatch
    have h1 := hmatch.1
    have hOr : pyOr (some bgs) "" = bgs := by
      simp only [pyOr]
      rw [if_neg (by simpa using hbgne)]
    rw [hOr] at h1
    rw [if_pos (by simpa using hkey)] at h1
    rw [Bool.and_eq_true] at h1
    have h2 := h1.2
    rcases hav with he | he <;> rw [he] at h2 <;> exact absurd h2 (by decide)
  · exact hmem
  · intro hc
    unfold search_donors
    by_cases hv : nmv = ""
    · subst hv
      rw [if_pos (by decide)]
      exact hmem
    · rw [if_neg (by simp [truthy, hv])]
      refine List.mem_filter.mpr ⟨hmem, ?_⟩
      unfold donorMatches
      rw [show pyUpper (pyStrip (pyOr (none : Option String) "")) = "" from rfl]
      rw [if_neg (by simp)]
      rw [Bool.true_and]
      have hOr : pyOr (some nmv) "" = nmv := by
        simp only [pyOr]
        rw [if_neg (by simpa using hv)]
      rw [hOr]
      split
      · rw [pyOr_empty d.Name]
        exact hc
      · rfl

/-- C10 counterexample to the claim as stated: under a whitespace-only
(truthy) blood-group filter, a donor with absent availability whose
normalized blood group equals the normalized filter is returned rather than
excluded. -/
theorem C10_missing_availability_counterexample :
    truthy (some " ") = true
    ∧ (⟨1, some "N", some "1", some "", none, some ""⟩ : Donor)
        ∈ search_donors [(⟨1, some "N", some "1", some "", none, some ""⟩ : Donor)]
            (some " ") none
    ∧ (⟨1, some "N", some "1", some "", none, some ""⟩ : Donor).Availability_Status = none
    ∧ pyUpper (pyStrip
          ((⟨1, some "N", some "1", some "", none, some ""⟩ : Donor).Blood_Group.getD ""))
        = pyUpper (pyStrip " ") := by
  refine ⟨by decide, by decide, by decide, by decide⟩

/-- C10 witness: a donor with no availability field is hidden from a "O+"
blood-group search but returned by the unfiltered search and by a
name-only search for "ann". -/
theorem C10_missing_availability_witness :
    (dNoAvail ∈ [dNoAvail]
      ∧ (dNoAvail.Availability_Status = none
          ∨ dNoAvail.Availability_Status = some ""))
    ∧ ((pyStrip "O+" ≠ "" → dNoAvail ∉ search_donors [dNoAvail] (some "O+") none)
        ∧ dNoAvail ∈ search_donors [dNoAvail] none none
        ∧ (pyContains (pyUpper (pyStrip (dNoAvail.Name.getD "")))
              (pyUpper (pyStrip "ann")) = true →
            dNoAvail ∈ search_donors [dNoAvail] none (some "ann"))) :=
  ⟨⟨by decide, by decide⟩,
    C10_missing_availability_amended [dNoAvail] dNoAvail "O+" none "ann"
      (by decide) (by decide)⟩

/-- The stored address expression of `create_donor` agrees with the
spec-side description: trimmed `Address` when truthy, else trimmed `City`
when truthy, else empty. -/
theorem address_spec (r : Req) :
    pyStrip (pyOr r.Address (pyOr r.City "")) = specAddress r := by
  unfold specAddress
  cases hA : r.Address with
  | none =>
    rw [show truthy none = false from rfl]
    simp only [Bool.false_eq_true, if_false]
    cases hC : r.City with
    | none => rfl
    | some c =>
      by_cases hc : c = ""
      · subst hc; rfl
      · have h1 : pyOr (some c) "" = c := by
          simp only [pyOr]
          rw [if_neg (by simpa using hc)]
        have h2 : truthy (some c) = true := by simp [truthy, hc]
        rw [show pyOr none (pyOr (some c) "") = pyOr (some c) "" from rfl,
          h1, h2, if_pos rfl]
        rfl
  | some s =>
    by_cases hs : s = ""
    · subst hs
      rw [show truthy (some "") = false from rfl]
      simp only [Bool.false_eq_true, if_false]
      cases hC : r.City with
      | none => rfl
      | some c =>
        by_cases hc : c = ""
        · subst hc; rfl
        · have h1 : pyOr (some c) "" = c := by
            simp only [pyOr]
            rw [if_neg (by simpa using hc)]
          have h2 : truthy (some c) = true := by simp [truthy, hc]
          rw [show pyOr (some "") (pyOr (some c) "") = pyOr (some c) "" from rfl,
            h1, h2, if_pos rfl]
          rfl
    · have h1 : pyOr (some s) (pyOr r.City "") = s := by
        simp only [pyOr]
        rw [if_neg (by simpa using hs)]
      have h2 : truthy (some s) = true := by simp [truthy, hs]
      rw [h1, h2, if_pos rfl, Option.getD_some]

/-- C2 (amended): a create request missing a required field — absent or the
empty string, Python truthiness without trimming — fails with the
validation error whose message joins exactly the missing required fields,
and leaves the collection unchanged; `missingFields` contains precisely the
required fields that are untruthy; and a request whose three required
fields are truthy (a whitespace-only value counts as present) raises no
validation error. -/
theorem C2_create_validation_amended (donors : List Donor) (r : Req) :
    ((∃ f, f ∈ requiredFields ∧ truthy (r.get f) = false) →
        (create_donor donors r).2 = Except.error (missingMsg r)
        ∧ (create_donor donors r).1 = donors)
    ∧ (∀ f, f ∈ requiredFields → truthy (r.get f) = false → f ∈ missingFields r)
    ∧ ((∀ f, f ∈ requiredFields → truthy (r.get f) = true) →
        ∃ d, (create_donor donors r).2 = Except.ok d) := by
  refine ⟨?_, ?_, ?_⟩
  · rintro ⟨f, hf, hft⟩
    have hne : missingFields r ≠ [] := by
      intro hnil
      have hmem : f ∈ missingFields r :=
        List.mem_filter.mpr ⟨hf, by simp [hft]⟩
      rw [hnil] at hmem
      simp at hmem
    unfold create_donor
    rw [if_pos hne]
    exact ⟨rfl, rfl⟩
  · intro f hf hft
    exact List.mem_filter.mpr ⟨hf, by simp [hft]⟩
  · intro hall
    have hnil : missingFields r = [] := by
      unfold missingFields
      rw [List.filter_eq_nil_iff]
      intro f hf
      simp [hall f hf]
    unfold create_donor
    rw [if_neg (by simp [hnil])]
    exact ⟨_, rfl⟩

/-- C2 counterexample to the claim as stated: a whitespace-only `Name` is
empty after trimming, yet the truthiness check of the source accepts it and the
create succeeds with no validation error, storing the trimmed-empty name. -/
theorem C2_create_validation_counterexample :
    pyStrip " " = ""
    ∧ (create_donor [] (⟨some " ", some "p", some "b+", none, none, none⟩ : Req)).2
      = Except.ok (⟨1, some "", some "p", some "B+", some "Available", some ""⟩ : Donor) := by
  refine ⟨by decide, by decide⟩

/-- C2 witness: creating with `Name` and `Blood_Group` but no `Phone_Number`
fails with a validation error naming exactly `Phone_Number`, creating
nothing. -/
theorem C2_create_validation_witness :
    ((create_donor [] (⟨some "A", none, some "b+", none, none, none⟩ : Req)).2
        = Except.error (missingMsg (⟨some "A", none, some "b+", none, none, none⟩ : Req))
      ∧ (create_donor [] (⟨some "A", none, some "b+", none, none, none⟩ : Req)).1 = [])
    ∧ missingMsg (⟨some "A", none, some "b+", none, none, none⟩ : Req)
      = "Missing fields: Phone_Number" :=
  ⟨(C2_create_validation_amended [] ⟨some "A", none, some "b+", none, none, none⟩).1
      ⟨"Phone_Number", by decide, by decide⟩,
    by decide⟩

/-- C5 (amended): a successful create stores and returns the new record as
the appended last element, with `Blood_Group` the trimmed upper-cased
input, `Availability_Status` defaulted to "Available" when not supplied,
and `Address` the trimmed `Address` input when that is present and
non-empty, otherwise the trimmed `City` input when present and non-empty,
otherwise the empty string. -/
theorem C5_create_fields_amended (donors : List Donor) (r : Req)
    (res : List Donor) (d : Donor)
    (h1 : truthy r.Name = true) (h2 : truthy r.Phone_Number = true)
    (h3 : truthy r.Blood_Group = true)
    (hok : create_donor donors r = (res, Except.ok d)) :
    res = donors ++ [d]
    ∧ d.Blood_Group = some (pyUpper (pyStrip (r.Blood_Group.getD "")))
    ∧ (r.Availability_Status = none → d.Availability_Status = some "Available")
    ∧ d.Address = some (specAddress r) := by
  have hnil : missingFields r = [] := by
    unfold missingFields requiredFields
    rw [List.filter_eq_nil_iff]
    intro f hf
    rcases List.mem_cons.mp hf with h | hf2
    · subst h
      simp [show Req.get r "Name" = r.Name from rfl, h1]
    rcases List.mem_cons.mp hf2 with h | hf3
    · subst h
      simp [show Req.get r "Phone_Number" = r.Phone_Number from rfl, h2]
    rcases List.mem_cons.mp hf3 with h | hf4
    · subst h
      simp [show Req.get r "Blood_Group" = r.Blood_Group from rfl, h3]
    · simp at hf4
  unfold create_donor at hok
  rw [if_neg (by simp [hnil])] at hok
  rw [Prod.mk.injEq] at hok
  obtain ⟨hres, hd⟩ := hok
  injection hd with hd
  subst hd
  subst hres
  refine ⟨rfl, ?_, ?_, ?_⟩
  · rw [pyOr_empty r.Blood_Group]
  · intro hnone
    rw [hnone]
    show some (pyCapitalize (pyStrip (pyOr none "Available"))) = some "Available"
    decide
  · exact congrArg some (address_spec r)

/-- C5 counterexample to the claim as stated: `Address` is supplied as the
empty string (present, not absent), so the claim predicts the stored
address is its trimmed value "", but the `or`-chain of the source falls through
to `City` and stores "Pune". -/
theorem C5_create_fields_counterexample :
    (create_donor []
        (⟨some "A", some "p", some "b+", some "", some "Pune", none⟩ : Req)).2
      = Except.ok
        (⟨1, some "A", some "p", some "B+", some "Available", some "Pune"⟩ : Donor)
    ∧ (⟨some "A", some "p", some "b+", some "", some "Pune", none⟩ : Req).Address
      = some ""
    ∧ (⟨1, some "A", some "p", some "B+", some "Available", some "Pune"⟩ : Donor).Address
      ≠ some (pyStrip
          ((⟨some "A", some "p", some "b+", some "", some "Pune", none⟩ : Req).Address.getD "")) := by
  refine ⟨by decide, by decide, by decide⟩

/-- C5 witness: creating with `City` "Pune" and no `Address` stores blood
group "O+" (upper-cased from "o+"), availability "Available" and address
"Pune". -/
theorem C5_create_fields_witness :
    (truthy reqPune.Name = true ∧ truthy reqPune.Phone_Number = true
      ∧ truthy reqPune.Blood_Group = true
      ∧ create_donor [] reqPune
        = ([(⟨1, some "Ann", some "123", some "O+", some "Available", some "Pune"⟩ : Donor)],
            Except.ok
              (⟨1, some "Ann", some "123", some "O+", some "Available", some "Pune"⟩ : Donor)))
    ∧ ([(⟨1, some "Ann", some "123", some "O+", some "Available", some "Pune"⟩ : Donor)]
          = [] ++ [(⟨1, some "Ann", some "123", some "O+", some "Available", some "Pune"⟩ : Donor)]
        ∧ (⟨1, some "Ann", some "123", some "O+", some "Available", some "Pune"⟩ : Donor).Blood_Group
          = some (pyUpper (pyStrip (reqPune.Blood_Group.getD "")))
        ∧ (reqPune.Availability_Status = none →
            (⟨1, some "Ann", some "123", some "O+", some "Available", some "Pune"⟩ : Donor).Availability_Status
              = some "Available")
        ∧ (⟨1, some "Ann", some "123", some "O+", some "Available", some "Pune"⟩ : Donor).Address
          = some (specAddress reqPune)) :=
  ⟨⟨by decide, by decide, by decide, by decide⟩,
    C5_create_fields_amended [] reqPune
      [(⟨1, some "Ann", some "123", some "O+", some "Available", some "Pune"⟩ : Donor)]
      (⟨1, some "Ann", some "123", some "O+", some "Available", some "Pune"⟩ : Donor)
      (by decide) (by decide) (by decide) (by decide)⟩

/-- C3: starting from a collection with pairwise-distinct ids, a successful
create assigns id `next_id` — one greater than the maximum existing id, 1
on the empty collection — strictly greater than every existing id; the
extended collection still has pairwise-distinct ids and keeps every old id
unchanged in place; and `update_status` (whatever its inputs) never changes
the id of any record. -/
theorem C3_id_assignment (donors : List Donor) (r : Req) (res : List Donor)
    (d : Donor) (did ns : Option String)
    (hdist : donors.Pairwise (fun a b => a.id ≠ b.id))
    (hok : create_donor donors r = (res, Except.ok d)) :
    d.id = next_id donors
    ∧ (∀ d2 ∈ donors, d2.id < d.id)
    ∧ (donors = [] → d.id = 1)
    ∧ (donors ≠ [] → (d.id - 1 ∈ donors.map (fun x => x.id)
        ∧ ∀ d2 ∈ donors, d2.id ≤ d.id - 1))
    ∧ res.Pairwise (fun a b => a.id ≠ b.id)
    ∧ res.map (fun x => x.id) = donors.map (fun x => x.id) ++ [d.id]
    ∧ (update_status donors did ns).1.map (fun x => x.id)
        = donors.map (fun x => x.id) := by
  unfold create_donor at hok
  by_cases hmiss : missingFields r ≠ []
  · rw [if_pos hmiss, Prod.mk.injEq] at hok
    exact absurd hok.2 (by simp)
  · rw [if_neg hmiss, Prod.mk.injEq] at hok
    obtain ⟨hres, hd⟩ := hok
    injection hd with hd
    subst hd
    subst hres
    refine ⟨rfl, ?_, ?_, ?_, ?_, ?_, update_status_map_id donors did ns⟩
    · intro d2 hd2
      exact id_lt_next_id donors d2 hd2
    · intro h0
      subst h0
      show next_id ([] : List Donor) = 1
      decide
    · intro hne
      refine ⟨next_id_sub_one_mem donors hne, ?_⟩
      intro d2 hd2
      have := id_lt_next_id donors d2 hd2
      show d2.id ≤ next_id donors - 1
      omega
    · rw [List.pairwise_append]
      refine ⟨hdist, List.pairwise_singleton _ _, ?_⟩
      intro a ha b hb
      rw [List.mem_singleton] at hb
      subst hb
      have := id_lt_next_id donors a ha
      show a.id ≠ next_id donors
      omega
    · rw [List.map_append]
      rfl

/-- C3 witness: on ids {5, 2} a valid create assigns id 6 = max + 1,
distinctness is preserved, old ids are untouched, and an update leaves the
id list unchanged. -/
theorem C3_id_assignment_witness :
    (donorsBase.Pairwise (fun a b => a.id ≠ b.id)
      ∧ create_donor donorsBase reqCat
        = (donorsBase ++ [(⟨6, some "Cat", some "3", some "AB-", some "Available", some ""⟩ : Donor)],
            Except.ok (⟨6, some "Cat", some "3", some "AB-", some "Available", some ""⟩ : Donor)))
    ∧ ((⟨6, some "Cat", some "3", some "AB-", some "Available", some ""⟩ : Donor).id
          = next_id donorsBase
        ∧ (∀ d2 ∈ donorsBase,
            d2.id < (⟨6, some "Cat", some "3", some "AB-", some "Available", some ""⟩ : Donor).id)
        ∧ (donorsBase = [] →
            (⟨6, some "Cat", some "3", some "AB-", some "Available", some ""⟩ : Donor).id = 1)
        ∧ (donorsBase ≠ [] →
            ((⟨6, some "Cat", some "3", some "AB-", some "Available", some ""⟩ : Donor).id - 1
                ∈ donorsBase.map (fun x => x.id)
              ∧ ∀ d2 ∈ donorsBase,
                  d2.id ≤ (⟨6, some "Cat", some "3", some "AB-", some "Available", some ""⟩ : Donor).id - 1))
        ∧ (donorsBase ++ [(⟨6, some "Cat", some "3", some "AB-", some "Available", some ""⟩ : Donor)]).Pairwise
            (fun a b => a.id ≠ b.id)
        ∧ (donorsBase ++ [(⟨6, some "Cat", some "3", some "AB-", some "Available", some ""⟩ : Donor)]).map
              (fun x => x.id)
          = donorsBase.map (fun x => x.id)
              ++ [(⟨6, some "Cat", some "3", some "AB-", some "Available", some ""⟩ : Donor).id]
        ∧ (update_status donorsBase (some "2") (some "unavailable")).1.map (fun x => x.id)
          = donorsBase.map (fun x => x.id)) :=
  ⟨⟨by decide, by decide⟩,
    C3_id_assignment donorsBase reqCat
      (donorsBase ++ [(⟨6, some "Cat", some "3", some "AB-", some "Available", some ""⟩ : Donor)])
      (⟨6, some "Cat", some "3", some "AB-", some "Available", some ""⟩ : Donor)
      (some "2") (some "unavailable") (by decide) (by decide)⟩
